import Mathlib

/-!
# terraform-provider-juicefs: shallow embedding and verified properties

Go strings are modelled by Lean `String` (sequences of Unicode scalar values,
which is what Terraform string values and valid UTF-8 process output are).
A Go `error` is modelled by its message (`Option String`, `none` for `nil`).
Handlers that talk to the outside world pass an explicit `World` that records
every subprocess invocation and every random identifier drawn.
-/

namespace JuiceFS

/-! ## Go standard library: package `strings` and `unicode` -/

/-- Go `unicode.IsSpace`: the code points with the Unicode White_Space property. -/
def isSpace (c : Char) : Bool :=
  let n := c.toNat
  (9 ≤ n && n ≤ 13) || n == 32 || n == 133 || n == 160 || n == 5760 ||
  (8192 ≤ n && n ≤ 8202) || n == 8232 || n == 8233 || n == 8239 ||
  n == 8287 || n == 12288

/-- Go `strings.TrimSpace`: drop leading and trailing white space. -/
def TrimSpace (s : String) : String :=
  ⟨(((s.data.dropWhile isSpace).reverse).dropWhile isSpace).reverse⟩

/-- Go `strings.TrimPrefix`: `s` without the leading `pre`, or `s` itself. -/
def TrimPrefix (s pre : String) : String :=
  if pre.data.isPrefixOf s.data then ⟨s.data.drop pre.data.length⟩ else s

/-- Replacement of an empty `old`: `new` is inserted at the start and after
each code point, at most `n` times. -/
def replaceEmpty (new : List Char) : List Char → Nat → List Char
  | s, 0 => s
  | [], _ + 1 => new
  | c :: t, n + 1 => new ++ c :: replaceEmpty new t n

/-- Left-to-right replacement of the first `n` non-overlapping occurrences of a
non-empty `old`; `skip` counts the characters of a matched occurrence that are
still to be consumed. -/
def replaceScan (old new : List Char) : List Char → Nat → Nat → List Char
  | [], _, _ => []
  | _ :: t, n, skip + 1 => replaceScan old new t n skip
  | c :: t, 0, 0 => c :: t
  | c :: t, n + 1, 0 =>
    if old.isPrefixOf (c :: t) then new ++ replaceScan old new t n (old.length - 1)
    else c :: replaceScan old new t (n + 1) 0

/-- Go `strings.Replace(s, old, new, n)`: a copy of `s` with the first `n`
non-overlapping instances of `old` replaced by `new`; no limit when `n < 0`. -/
def Replace (s old new : String) (n : Int) : String :=
  if old = new ∨ n = 0 then s
  else
    let limit : Nat := if n < 0 then s.data.length + 1 else n.toNat
    if old.data.isEmpty then ⟨replaceEmpty new.data s.data limit⟩
    else ⟨replaceScan old.data new.data s.data limit 0⟩

/-- Substring test on character lists. -/
def containsSub (sub : List Char) : List Char → Bool
  | [] => sub.isEmpty
  | c :: t => sub.isPrefixOf (c :: t) || containsSub sub t

/-- Go `strings.Contains`. -/
def Contains (s sub : String) : Bool := containsSub sub.data s.data

/-! ## Library `collections` -/

/-- Library `collections.Include(slice, elem)`: whether the slice holds the element. -/
def Include (slice : List String) (elem : String) : Bool :=
  match slice with
  | [] => false
  | x :: rest => if x = elem then true else Include rest elem

/-! ## terraform-plugin-framework: `types` and `diag` -/

/-- Framework `types.String`. -/
structure TypesString where
  Unknown : Bool
  Null : Bool
  Value : String
deriving DecidableEq, Repr

/-- Framework `types.Bool`. -/
structure TypesBool where
  Unknown : Bool
  Null : Bool
  Value : Bool
deriving DecidableEq, Repr

/-- Severity of a diagnostic. -/
inductive Severity where
  | Error
  | Warning
deriving DecidableEq, Repr

/-- Framework `diag.Diagnostic`: severity, summary and detail. -/
structure Diagnostic where
  severity : Severity
  summary : String
  detail : String
deriving DecidableEq, Repr

/-- Framework `diag.Diagnostics`. -/
abbrev Diagnostics := List Diagnostic

/-- Framework `Diagnostics.Append`: adds the diagnostics that are not already present. -/
def Diagnostics.Append (diags : Diagnostics) : List Diagnostic → Diagnostics
  | [] => diags
  | d :: rest =>
    if d ∈ diags then Diagnostics.Append diags rest
    else Diagnostics.Append (diags ++ [d]) rest

/-- Framework `diag.NewErrorDiagnostic`. -/
def NewErrorDiagnostic (summary detail : String) : Diagnostic :=
  ⟨Severity.Error, summary, detail⟩

/-- Framework `Diagnostics.AddError`. -/
def Diagnostics.AddError (diags : Diagnostics) (summary detail : String) : Diagnostics :=
  Diagnostics.Append diags [NewErrorDiagnostic summary detail]

/-- Framework `Diagnostics.HasError`. -/
def Diagnostics.HasError (diags : Diagnostics) : Bool :=
  diags.any (fun d => decide (d.severity = Severity.Error))

/-- The dynamic value `ToTerraformValue` yields for a string attribute. -/
inductive TerraformValue where
  | nil
  | unknownValue
  | str (s : String)
deriving DecidableEq, Repr

/-- Framework `types.String.ToTerraformValue`; it never fails. -/
def TypesString.ToTerraformValue (s : TypesString) : Except String TerraformValue :=
  if s.Null then Except.ok TerraformValue.nil
  else if s.Unknown then Except.ok TerraformValue.unknownValue
  else Except.ok (TerraformValue.str s.Value)

/-! ## resource_juicefs_format.go: validator -/

/-- Source `validStorages`. -/
def validStorages : List String :=
  ["file", "mem", "redis", "s3", "sftp", "wasb", "webdav"]

/-- Framework `tfsdk.ValidateAttributeRequest`, reduced to the attribute value. -/
structure ValidateAttributeRequest where
  AttributeConfig : TypesString

/-- Framework `tfsdk.ValidateAttributeResponse`. -/
structure ValidateAttributeResponse where
  Diagnostics : Diagnostics
deriving DecidableEq, Repr

/-- Source `resourceFormatStorageValidator.Validate`. The result is `none` when
the type assertion `attr.(string)` panics (null or unknown attribute). -/
def resourceFormatStorageValidator.Validate (request : ValidateAttributeRequest)
    (response : ValidateAttributeResponse) : Option ValidateAttributeResponse :=
  match request.AttributeConfig.ToTerraformValue with
  | Except.error err =>
    some { Diagnostics := response.Diagnostics.AddError "validation failed" err }
  | Except.ok (TerraformValue.str attr) =>
    if !Include validStorages attr then
      some { Diagnostics := response.Diagnostics.AddError "validation failed"
              ("storage " ++ attr ++ " is not supported") }
    else some response
  | Except.ok _ => none

/-! ## Subprocess helper and the outside world -/

/-- Go `map[string]string` as an association list with unique keys. -/
abbrev StringMap := List (String × String)

/-- Go map assignment `m[k] = v`. -/
def mapSet (m : StringMap) (k v : String) : StringMap :=
  (m.filter (fun e => decide (e.1 ≠ k))) ++ [(k, v)]

/-- One call of the library helper `cmds.RunCommandWithEnvReturnOutput`. -/
structure Invocation where
  exe : String
  env : StringMap
  args : List String
deriving DecidableEq, Repr

/-- What the helper returns: the captured output and the error (`none` for `nil`). -/
structure CmdResult where
  output : String
  err : Option String
deriving DecidableEq, Repr

/-- The collaborators a handler cannot compute itself: the path returned by
`os.Executable`, the behaviour of the subprocess, and the random source of
`uuid.NewRandom` (the `k`-th identifier drawn). -/
structure System where
  exe : String
  run : Invocation → CmdResult
  newUUID : Nat → String

/-- The effects a handler leaves behind: the subprocess invocations made so far
(oldest first) and the number of random identifiers drawn. -/
structure World where
  calls : List Invocation
  uuids : Nat
deriving DecidableEq, Repr

/-- Library `cmds.RunCommandWithEnvReturnOutput(exe, env, args...)`. -/
def RunCommandWithEnvReturnOutput (sys : System) (exe : String) (env : StringMap)
    (args : List String) (w : World) : CmdResult × World :=
  (sys.run ⟨exe, env, args⟩, { w with calls := w.calls ++ [⟨exe, env, args⟩] })

/-- Library `errors.Wrap(err, message)`, as the text of the wrapped error. -/
def errorsWrap (err : String) (message : String) : String :=
  message ++ ": " ++ err

/-! ## provider.go -/

/-- Source constant `TJPRunJFS`. -/
def TJPRunJFS : String := "TJP_RUN_JUICEFS"

/-- The implementations of `tfsdk.ResourceType` in this package. -/
inductive ResourceType where
  | resourceFormat
deriving DecidableEq, Repr

/-- The implementations of `tfsdk.DataSourceType` in this package. -/
inductive DataSourceType where
  | dataSourceVersionType
deriving DecidableEq, Repr

/-- Source `provider.GetResources`: the registered resource types by name. -/
def provider.GetResources : List (String × ResourceType) × Diagnostics :=
  ([], [])

/-- Source `provider.GetDataSources`: the registered data source types by name. -/
def provider.GetDataSources : List (String × DataSourceType) × Diagnostics :=
  ([("juicefs_version", DataSourceType.dataSourceVersionType)], [])

/-! ## resource_juicefs_format.go: the format resource -/

/-- Source struct `resourceFormat`. -/
structure resourceFormat where
  ID : TypesString
  AdditionalParams : List String
  Environment : StringMap
  Triggers : StringMap
  Force : TypesBool
  Storage : TypesString
  Bucket : TypesString
  MetadataURI : TypesString
  StorageName : TypesString
  AzureStorageEndpointSuffixFix : TypesBool
deriving DecidableEq, Repr

/-- The bucket value computed at the top of `juiceFSFormat`. -/
def juiceFSFormatBucket (resourceState : resourceFormat) : String :=
  if resourceState.AzureStorageEndpointSuffixFix.Value then
    Replace ".blob.core.windows.net" resourceState.Bucket.Value ".core.windows.net" 1
  else resourceState.Bucket.Value

/-- The argument list `params` assembled by `juiceFSFormat`. The source tests
`len(Bucket.Value) > 0` on bytes; a string has a byte exactly when it has a
character, so the test is made on the character count. -/
def juiceFSFormatParams (resourceState : resourceFormat) : List String :=
  let bucket := juiceFSFormatBucket resourceState
  let params := ["format", "--storage", resourceState.Storage.Value]
  let params :=
    if !resourceState.Bucket.Unknown && decide (resourceState.Bucket.Value.length > 0) then
      params ++ ["--bucket", bucket]
    else params
  let params := if resourceState.Force.Value then params ++ ["--force"] else params
  let params := params ++ resourceState.AdditionalParams
  params ++ [resourceState.MetadataURI.Value, resourceState.StorageName.Value]

/-- The environment `envVars` assembled by `juiceFSFormat`: a copy of the
configured environment with the sentinel variable set. -/
def juiceFSFormatEnv (resourceState : resourceFormat) : StringMap :=
  let envVars : StringMap :=
    resourceState.Environment.foldl (fun m kv => mapSet m kv.1 kv.2) []
  mapSet envVars TJPRunJFS "true"

/-- Source `resourceImage.juiceFSFormat`: returns the error (`none` for `nil`). -/
def resourceImage.juiceFSFormat (sys : System) (resourceState : resourceFormat)
    (w : World) : Option String × World :=
  let envVars := juiceFSFormatEnv resourceState
  let params := juiceFSFormatParams resourceState
  let exe := sys.exe
  let (res, w) := RunCommandWithEnvReturnOutput sys exe envVars params w
  match res.err with
  | some err => (some (errorsWrap err ("could not run juicefs command; output: " ++ res.output)), w)
  | none => (none, w)

/-- Source `resourceImage.updateState`: draws a random identifier when the
identifier of the given state is unknown. The error it returns is always `nil`
(`none`); a failing random source, on which `uuid.Must` panics, is not modelled. -/
def resourceImage.updateState (sys : System) (resourceState : resourceFormat)
    (w : World) : (Option String × resourceFormat) × World :=
  if resourceState.ID.Unknown then
    ((none, { resourceState with
                ID := { Unknown := false, Null := false, Value := sys.newUUID w.uuids } }),
     { w with uuids := w.uuids + 1 })
  else ((none, resourceState), w)

/-- What `Config.Get`, `Plan.Get` or `State.Get` yields: the decoded struct and
the diagnostics of decoding. -/
structure Decoded where
  value : resourceFormat
  diags : Diagnostics
deriving DecidableEq, Repr

/-- Response of a resource handler: the resource state (`none` when the
resource is absent from state) and the diagnostics. -/
structure ResourceResponse where
  State : Option resourceFormat
  Diagnostics : Diagnostics
deriving DecidableEq, Repr

/-- Framework `tfsdk.CreateResourceRequest`. -/
structure CreateResourceRequest where
  Config : Decoded

/-- Framework `tfsdk.UpdateResourceRequest`. -/
structure UpdateResourceRequest where
  Plan : Decoded
  State : Decoded

/-- Framework `tfsdk.DeleteResourceRequest`. -/
structure DeleteResourceRequest where
  State : Decoded

/-- Framework `State.Set` on a struct whose fields match the schema: the state
becomes the given value and no diagnostic is returned. -/
def stateSet (resp : ResourceResponse) (v : resourceFormat) : ResourceResponse × Diagnostics :=
  ({ resp with State := some v }, [])

/-- Source `resourceImage.Create`. -/
def resourceImage.Create (sys : System) (req : CreateResourceRequest)
    (resp : ResourceResponse) (w : World) : ResourceResponse × World :=
  let resourceState := req.Config.value
  let diags := req.Config.diags
  let resp := { resp with Diagnostics := resp.Diagnostics.Append diags }
  if resp.Diagnostics.HasError then (resp, w)
  else
    let (err, w) := resourceImage.juiceFSFormat sys resourceState w
    match err with
    | some e => ({ resp with Diagnostics := resp.Diagnostics.AddError "Failed to run juicefs init" e }, w)
    | none =>
      let ((err, resourceState), w) := resourceImage.updateState sys resourceState w
      match err with
      | some e => ({ resp with Diagnostics := resp.Diagnostics.AddError "Failed to run juicefs" e }, w)
      | none =>
        let (resp, diags) := stateSet resp resourceState
        ({ resp with Diagnostics := resp.Diagnostics.Append diags }, w)

/-- Source `resourceImage.Update`. -/
def resourceImage.Update (sys : System) (req : UpdateResourceRequest)
    (resp : ResourceResponse) (w : World) : ResourceResponse × World :=
  let plan := req.Plan.value
  let diags := req.Plan.diags
  let resp := { resp with Diagnostics := resp.Diagnostics.Append diags }
  if resp.Diagnostics.HasError then (resp, w)
  else
    let diags := req.State.diags
    let resp := { resp with Diagnostics := resp.Diagnostics.Append diags }
    if resp.Diagnostics.HasError then (resp, w)
    else
      let (err, w) := resourceImage.juiceFSFormat sys plan w
      match err with
      | some e => ({ resp with Diagnostics := resp.Diagnostics.AddError "Failed to run juicefs init" e }, w)
      | none =>
        let ((err, plan), w) := resourceImage.updateState sys plan w
        match err with
        | some e => ({ resp with Diagnostics := resp.Diagnostics.AddError "Failed to run juicefs" e }, w)
        | none =>
          let (resp, diags) := stateSet resp plan
          ({ resp with Diagnostics := resp.Diagnostics.Append diags }, w)

/-- Source `resourceImage.Delete`. -/
def resourceImage.Delete (_sys : System) (req : DeleteResourceRequest)
    (resp : ResourceResponse) (w : World) : ResourceResponse × World :=
  let diags := req.State.diags
  let resp := { resp with Diagnostics := resp.Diagnostics.Append diags }
  if resp.Diagnostics.HasError then (resp, w)
  else ({ resp with State := none }, w)

/-! ## data_source_juicefs_version.go -/

/-- Source struct `dataSourceVersionType`. -/
structure dataSourceVersionType where
  Version : String
deriving DecidableEq, Repr

/-- Framework `tfsdk.ReadDataSourceResponse`. -/
structure ReadDataSourceResponse where
  State : Option dataSourceVersionType
  Diagnostics : Diagnostics
deriving DecidableEq, Repr

/-- Source `dataSourceVersion.Read`. -/
def dataSourceVersion.Read (sys : System) (resp : ReadDataSourceResponse)
    (w : World) : ReadDataSourceResponse × World :=
  let exe := sys.exe
  let (res, w) := RunCommandWithEnvReturnOutput sys exe [(TJPRunJFS, "true")] ["--version"] w
  match res.err with
  | some err => ({ resp with Diagnostics := resp.Diagnostics.AddError "Failed to run juicefs" err }, w)
  | none =>
    if res.output.length = 0 then
      ({ resp with Diagnostics :=
          resp.Diagnostics.AddError "Unexpected output" "JuiceFS did not output anything" }, w)
    else
      let resourceState : dataSourceVersionType :=
        { Version := TrimSpace (TrimPrefix (TrimSpace (TrimPrefix res.output "juicefs")) "version") }
      let resp := { resp with State := some resourceState }
      let diags : Diagnostics := []
      ({ resp with Diagnostics := resp.Diagnostics.Append diags }, w)

/-! ## Sample inputs -/

/-- A system whose subprocess always succeeds with empty output and whose
random source yields a fixed identifier. -/
def sampleSystem : System :=
  ⟨"tf", fun _ => ⟨"", none⟩, fun _ => "00000000-0000-4000-8000-000000000000"⟩

/-- A format resource on the in-memory backend with the given identifier and
metadata URI; every optional attribute is null. -/
def sampleFormat (id : TypesString) (metadataURI : String) : resourceFormat :=
  { ID := id, AdditionalParams := [], Environment := [], Triggers := [],
    Force := ⟨false, true, false⟩, Storage := ⟨false, false, "mem"⟩,
    Bucket := ⟨false, true, ""⟩, MetadataURI := ⟨false, false, metadataURI⟩,
    StorageName := ⟨false, false, "n"⟩,
    AzureStorageEndpointSuffixFix := ⟨false, true, false⟩ }

/-! ## Helper lemmas -/

theorem Include_eq_true_iff (slice : List String) (elem : String) :
    Include slice elem = true ↔ elem ∈ slice := by
  induction slice with
  | nil => simp [Include]
  | cons x rest ih =>
    unfold Include
    by_cases h : x = elem
    · simp [h]
    · have h2 : ¬ elem = x := fun e => h e.symm
      simp [h, h2, ih]

theorem Append_single_of_not_mem (diags : Diagnostics) (d : Diagnostic) (h : d ∉ diags) :
    Diagnostics.Append diags [d] = diags ++ [d] := by
  simp [Diagnostics.Append, h]

theorem Append_single_of_mem (diags : Diagnostics) (d : Diagnostic) (h : d ∈ diags) :
    Diagnostics.Append diags [d] = diags := by
  simp [Diagnostics.Append, h]

theorem Append_nil (diags : Diagnostics) : Diagnostics.Append diags [] = diags := rfl

theorem mem_Append_single (diags : Diagnostics) (d : Diagnostic) :
    d ∈ Diagnostics.Append diags [d] := by
  by_cases h : d ∈ diags
  · rw [Append_single_of_mem diags d h]; exact h
  · rw [Append_single_of_not_mem diags d h]; simp

theorem juiceFSFormat_world (sys : System) (rs : resourceFormat) (w : World) :
    (resourceImage.juiceFSFormat sys rs w).2 =
      { w with calls := w.calls ++
          [⟨sys.exe, juiceFSFormatEnv rs, juiceFSFormatParams rs⟩] } := by
  unfold resourceImage.juiceFSFormat RunCommandWithEnvReturnOutput
  simp only []
  split <;> rfl

theorem juiceFSFormat_err (sys : System) (rs : resourceFormat) (w : World) :
    (resourceImage.juiceFSFormat sys rs w).1 =
      match (sys.run ⟨sys.exe, juiceFSFormatEnv rs, juiceFSFormatParams rs⟩).err with
      | some err => some (errorsWrap err ("could not run juicefs command; output: " ++
          (sys.run ⟨sys.exe, juiceFSFormatEnv rs, juiceFSFormatParams rs⟩).output))
      | none => none := by
  unfold resourceImage.juiceFSFormat RunCommandWithEnvReturnOutput
  simp only []
  split <;> simp_all

theorem length_pos_of_ne_empty (s : String) (h : s ≠ "") : s.length > 0 := by
  rcases s with ⟨l⟩
  cases l with
  | nil => exact absurd rfl h
  | cons c t => simp [String.length]

theorem HasError_of_mem (diags : Diagnostics) (d : Diagnostic) (hd : d ∈ diags)
    (hs : d.severity = Severity.Error) : diags.HasError = true := by
  unfold Diagnostics.HasError
  rw [List.any_eq_true]
  exact ⟨d, hd, by simp [hs]⟩

theorem containsSub_self_append (sub suf : List Char) : containsSub sub (sub ++ suf) = true := by
  cases h : sub ++ suf with
  | nil =>
    have : sub = [] := (List.append_eq_nil.mp h).1
    simp [containsSub, this]
  | cons c t =>
    have hp : sub.isPrefixOf (c :: t) = true := by
      rw [← h, List.isPrefixOf_iff_prefix]; exact List.prefix_append sub suf
    simp [containsSub, hp]

theorem containsSub_append_left (sub pre rest : List Char) (h : containsSub sub rest = true) :
    containsSub sub (pre ++ rest) = true := by
  induction pre with
  | nil => simpa using h
  | cons c t ih => simp [containsSub, ih]

theorem Contains_middle (pre o suf : String) : Contains (pre ++ o ++ suf) o = true := by
  unfold Contains
  simp only [String.data_append, List.append_assoc]
  exact containsSub_append_left _ _ _ (containsSub_self_append _ _)

theorem dropWhile_space_append (pre l : List Char) (hpre : ∀ c ∈ pre, isSpace c = true) :
    (pre ++ l).dropWhile isSpace = l.dropWhile isSpace := by
  induction pre with
  | nil => rfl
  | cons c t ih =>
    have hc : isSpace c = true := hpre c (List.mem_cons_self c t)
    have ht : ∀ x ∈ t, isSpace x = true := fun x hx => hpre x (List.mem_cons_of_mem c hx)
    simp [List.dropWhile, hc, ih ht]

theorem dropWhile_space_of_head (l : List Char)
    (hhead : ∀ c, l.head? = some c → isSpace c = false) : l.dropWhile isSpace = l := by
  cases l with
  | nil => rfl
  | cons c t => simp [List.dropWhile, hhead c rfl]

theorem trim_sandwich (pre l suf : List Char)
    (hpre : ∀ c ∈ pre, isSpace c = true) (hsuf : ∀ c ∈ suf, isSpace c = true)
    (hhead : ∀ c, l.head? = some c → isSpace c = false)
    (hlast : ∀ c, l.getLast? = some c → isSpace c = false) :
    TrimSpace ⟨pre ++ l ++ suf⟩ = ⟨l⟩ := by
  unfold TrimSpace
  congr 1
  simp only [List.append_assoc]
  rw [dropWhile_space_append pre _ hpre]
  cases l with
  | nil =>
    have h := dropWhile_space_append suf [] hsuf
    simp only [List.append_nil, List.dropWhile_nil] at h
    simp [h]
  | cons c t =>
    have hc : isSpace c = false := hhead c rfl
    have h1 : (c :: t ++ suf).dropWhile isSpace = c :: t ++ suf := by
      simp [List.dropWhile, hc]
    rw [h1, List.reverse_append]
    rw [dropWhile_space_append suf.reverse _ (fun x hx => hsuf x (List.mem_reverse.mp hx))]
    rw [dropWhile_space_of_head (c :: t).reverse
      (fun x hx => hlast x (by rw [← hx, List.head?_reverse]))]
    exact List.reverse_reverse _

theorem TrimPrefix_append (p s : String) : TrimPrefix (p ++ s) p = s := by
  unfold TrimPrefix
  have hp : p.data.isPrefixOf (p ++ s).data = true := by
    rw [List.isPrefixOf_iff_prefix, String.data_append]; exact List.prefix_append _ _
  rw [if_pos hp]
  simp [String.data_append]

theorem version_read_success (sys : System) (resp : ReadDataSourceResponse) (w : World)
    (out : String) (hout : out.length ≠ 0)
    (hrun : sys.run ⟨sys.exe, [(TJPRunJFS, "true")], ["--version"]⟩ = ⟨out, none⟩) :
    (dataSourceVersion.Read sys resp w).1 =
      { State := some ⟨TrimSpace (TrimPrefix (TrimSpace (TrimPrefix out "juicefs")) "version")⟩,
        Diagnostics := resp.Diagnostics } := by
  unfold dataSourceVersion.Read RunCommandWithEnvReturnOutput
  simp [hrun, hout, Append_nil]

/-! ## Claims -/

/-- C1: for a known string value `v` of the storage attribute, the validator
leaves the response untouched (adds no diagnostic) exactly when `v` is one of
file, mem, redis, s3, sftp, wasb, webdav; otherwise it adds exactly one error
diagnostic, whose detail is "storage v is not supported". The response is any
response that does not already hold that very diagnostic. -/
theorem storage_validator_allow_list (v : String) (response : ValidateAttributeResponse)
    (hfresh : NewErrorDiagnostic "validation failed" ("storage " ++ v ++ " is not supported")
      ∉ response.Diagnostics) :
    (resourceFormatStorageValidator.Validate ⟨⟨false, false, v⟩⟩ response = some response ↔
      (v = "file" ∨ v = "mem" ∨ v = "redis" ∨ v = "s3" ∨ v = "sftp" ∨ v = "wasb" ∨
        v = "webdav")) ∧
    (¬ (v = "file" ∨ v = "mem" ∨ v = "redis" ∨ v = "s3" ∨ v = "sftp" ∨ v = "wasb" ∨
        v = "webdav") →
      resourceFormatStorageValidator.Validate ⟨⟨false, false, v⟩⟩ response =
        some { Diagnostics := response.Diagnostics ++
          [⟨Severity.Error, "validation failed", "storage " ++ v ++ " is not supported"⟩] }) := by
  have hmem : Include validStorages v = true ↔
      (v = "file" ∨ v = "mem" ∨ v = "redis" ∨ v = "s3" ∨ v = "sftp" ∨ v = "wasb" ∨
        v = "webdav") := by
    rw [Include_eq_true_iff]; simp [validStorages]
  have hval : resourceFormatStorageValidator.Validate ⟨⟨false, false, v⟩⟩ response =
      if Include validStorages v = true then some response
      else some { Diagnostics := response.Diagnostics ++
          [⟨Severity.Error, "validation failed", "storage " ++ v ++ " is not supported"⟩] } := by
    unfold resourceFormatStorageValidator.Validate
    simp only [TypesString.ToTerraformValue, Diagnostics.AddError]
    by_cases hin : Include validStorages v = true
    · simp [hin]
    · simp only [Bool.not_eq_true] at hin
      simp only [hin, Bool.not_false, if_true, Bool.false_eq_true, if_false]
      exact congrArg (fun d => some (ValidateAttributeResponse.mk d))
        (Append_single_of_not_mem _ _ hfresh)
  constructor
  · rw [hval]
    by_cases hin : Include validStorages v = true
    · simp only [hin, if_true, true_iff]; exact hmem.mp hin
    · have hno := fun h => hin (hmem.mpr h)
      simp only [hin, if_false]
      constructor
      · intro h
        exfalso
        have h2 := congrArg (fun r => Option.map (fun x => x.Diagnostics.length) r) h
        simp at h2
      · intro h; exact absurd h hno
  · intro hno
    rw [hval]
    have hin : ¬ Include validStorages v = true := fun h => hno (hmem.mp h)
    simp [hin]

/-- Witness of C1 at the unsupported value "ftp" on a fresh response. -/
theorem storage_validator_allow_list_witness :
    resourceFormatStorageValidator.Validate ⟨⟨false, false, "ftp"⟩⟩ ⟨[]⟩ =
      some ⟨[⟨Severity.Error, "validation failed", "storage ftp is not supported"⟩]⟩ :=
  (storage_validator_allow_list "ftp" ⟨[]⟩ (by simp)).2 (by decide)

/-- C2: with a known non-empty bucket `b` and the Azure suffix fix disabled,
`juiceFSFormat` makes exactly one subprocess call, on the provider's own
executable, whose argument list is format, --storage, s, --bucket, b, then
--force when force is set, then the additional parameters in the order
supplied, then the metadata URI and the storage name. -/
theorem juiceFSFormat_args_with_bucket (sys : System) (rs : resourceFormat) (w : World)
    (hknown : rs.Bucket.Unknown = false) (hne : rs.Bucket.Value ≠ "")
    (hfix : rs.AzureStorageEndpointSuffixFix.Value = false) :
    ∃ env, (resourceImage.juiceFSFormat sys rs w).2.calls = w.calls ++
      [⟨sys.exe, env,
        ["format", "--storage", rs.Storage.Value, "--bucket", rs.Bucket.Value] ++
          (if rs.Force.Value then ["--force"] else []) ++ rs.AdditionalParams ++
          [rs.MetadataURI.Value, rs.StorageName.Value]⟩] := by
  have hlen := length_pos_of_ne_empty _ hne
  refine ⟨juiceFSFormatEnv rs, ?_⟩
  have hp : juiceFSFormatParams rs =
      ["format", "--storage", rs.Storage.Value, "--bucket", rs.Bucket.Value] ++
          (if rs.Force.Value then ["--force"] else []) ++ rs.AdditionalParams ++
          [rs.MetadataURI.Value, rs.StorageName.Value] := by
    unfold juiceFSFormatParams juiceFSFormatBucket
    cases hf : rs.Force.Value <;> simp [hknown, hlen, hfix]
  rw [juiceFSFormat_world, hp]

/-- Witness of C2: additional parameters --a 1, force set, bucket "b" give
format --storage s3 --bucket b --force --a 1 m n. -/
theorem juiceFSFormat_args_with_bucket_witness :
    ∃ env, (resourceImage.juiceFSFormat ⟨"tf", fun _ => ⟨"", none⟩, fun _ => "u"⟩
        { ID := ⟨true, false, ""⟩, AdditionalParams := ["--a", "1"], Environment := [],
          Triggers := [], Force := ⟨false, false, true⟩, Storage := ⟨false, false, "s3"⟩,
          Bucket := ⟨false, false, "b"⟩, MetadataURI := ⟨false, false, "m"⟩,
          StorageName := ⟨false, false, "n"⟩,
          AzureStorageEndpointSuffixFix := ⟨false, true, false⟩ } ⟨[], 0⟩).2.calls =
      [⟨"tf", env, ["format", "--storage", "s3", "--bucket", "b", "--force", "--a", "1",
        "m", "n"]⟩] :=
  juiceFSFormat_args_with_bucket ⟨"tf", fun _ => ⟨"", none⟩, fun _ => "u"⟩
    { ID := ⟨true, false, ""⟩, AdditionalParams := ["--a", "1"], Environment := [],
      Triggers := [], Force := ⟨false, false, true⟩, Storage := ⟨false, false, "s3"⟩,
      Bucket := ⟨false, false, "b"⟩, MetadataURI := ⟨false, false, "m"⟩,
      StorageName := ⟨false, false, "n"⟩,
      AzureStorageEndpointSuffixFix := ⟨false, true, false⟩ } ⟨[], 0⟩ rfl (by decide) rfl

/-- C3 (evaluation of the code): with the Azure suffix fix enabled and bucket
"mystorage.blob.core.windows.net/container", the value `juiceFSFormat` passes
after --bucket is ".blob.core.windows.net", not
"mystorage.core.windows.net/container": the arguments of `strings.Replace` are
in the wrong order, so the constant is the subject and the bucket the pattern. -/
theorem juiceFSFormat_azure_fix_emits_constant :
    (resourceImage.juiceFSFormat ⟨"tf", fun _ => ⟨"", none⟩, fun _ => "u"⟩
        { ID := ⟨true, false, ""⟩, AdditionalParams := [], Environment := [],
          Triggers := [], Force := ⟨false, true, false⟩, Storage := ⟨false, false, "wasb"⟩,
          Bucket := ⟨false, false, "mystorage.blob.core.windows.net/container"⟩,
          MetadataURI := ⟨false, false, "m"⟩, StorageName := ⟨false, false, "n"⟩,
          AzureStorageEndpointSuffixFix := ⟨false, false, true⟩ } ⟨[], 0⟩).2.calls.map
        Invocation.args =
      [["format", "--storage", "wasb", "--bucket", ".blob.core.windows.net", "m", "n"]] ∧
    Replace "mystorage.blob.core.windows.net/container" ".blob.core.windows.net"
        ".core.windows.net" 1 = "mystorage.core.windows.net/container" := by
  constructor <;> decide

/-- C4: when the bucket is unknown or its value is the empty string, whatever
the Azure suffix fix flag, `juiceFSFormat` makes exactly one subprocess call
whose argument list is format, --storage, s, then --force when force is set,
then the additional parameters, then the metadata URI and the storage name:
no --bucket flag and no bucket value. -/
theorem juiceFSFormat_args_without_bucket (sys : System) (rs : resourceFormat) (w : World)
    (hb : rs.Bucket.Unknown = true ∨ rs.Bucket.Value = "") :
    ∃ env, (resourceImage.juiceFSFormat sys rs w).2.calls = w.calls ++
      [⟨sys.exe, env,
        ["format", "--storage", rs.Storage.Value] ++
          (if rs.Force.Value then ["--force"] else []) ++ rs.AdditionalParams ++
          [rs.MetadataURI.Value, rs.StorageName.Value]⟩] := by
  refine ⟨juiceFSFormatEnv rs, ?_⟩
  have hp : juiceFSFormatParams rs =
      ["format", "--storage", rs.Storage.Value] ++
          (if rs.Force.Value then ["--force"] else []) ++ rs.AdditionalParams ++
          [rs.MetadataURI.Value, rs.StorageName.Value] := by
    unfold juiceFSFormatParams
    rcases hb with hb | hb
    · cases hf : rs.Force.Value <;> simp [hb]
    · cases hf : rs.Force.Value <;> simp [hb]
  rw [juiceFSFormat_world, hp]

/-- Witness of C4: an empty bucket with the Azure suffix fix enabled and force
set gives format --storage wasb --force --a m n. -/
theorem juiceFSFormat_args_without_bucket_witness :
    ∃ env, (resourceImage.juiceFSFormat ⟨"tf", fun _ => ⟨"", none⟩, fun _ => "u"⟩
        { ID := ⟨true, false, ""⟩, AdditionalParams := ["--a"], Environment := [],
          Triggers := [], Force := ⟨false, false, true⟩, Storage := ⟨false, false, "wasb"⟩,
          Bucket := ⟨false, false, ""⟩, MetadataURI := ⟨false, false, "m"⟩,
          StorageName := ⟨false, false, "n"⟩,
          AzureStorageEndpointSuffixFix := ⟨false, false, true⟩ } ⟨[], 0⟩).2.calls =
      [⟨"tf", env, ["format", "--storage", "wasb", "--force", "--a", "m", "n"]⟩] :=
  juiceFSFormat_args_without_bucket ⟨"tf", fun _ => ⟨"", none⟩, fun _ => "u"⟩
    { ID := ⟨true, false, ""⟩, AdditionalParams := ["--a"], Environment := [],
      Triggers := [], Force := ⟨false, false, true⟩, Storage := ⟨false, false, "wasb"⟩,
      Bucket := ⟨false, false, ""⟩, MetadataURI := ⟨false, false, "m"⟩,
      StorageName := ⟨false, false, "n"⟩,
      AzureStorageEndpointSuffixFix := ⟨false, false, true⟩ } ⟨[], 0⟩ (Or.inr rfl)

/-- C7 (evaluation of the code): `GetResources` returns an empty map, so the
format resource `resourceFormat` is not exposed, while `GetDataSources`
returns exactly one entry, the version data source. -/
theorem provider_registers_no_resource :
    provider.GetResources.1 = [] ∧ provider.GetResources.1.length ≠ 1 ∧
    provider.GetDataSources.1 = [("juicefs_version", DataSourceType.dataSourceVersionType)] := by
  refine ⟨rfl, by decide, rfl⟩

/-- C10: `Delete` makes no subprocess invocation and draws no identifier (the
world is left as it was), and when decoding the stored state leaves no error
diagnostic its only effect on the response is to remove the resource from
state. -/
theorem delete_runs_no_subprocess (sys : System) (req : DeleteResourceRequest)
    (resp : ResourceResponse) (w : World) :
    (resourceImage.Delete sys req resp w).2 = w ∧
    ((resp.Diagnostics.Append req.State.diags).HasError = false →
      (resourceImage.Delete sys req resp w).1 =
        { State := none, Diagnostics := resp.Diagnostics.Append req.State.diags }) := by
  unfold resourceImage.Delete
  constructor
  · simp only []
    split <;> rfl
  · intro h
    simp [h]

/-- C8: when the subprocess succeeds with output "juicefs version " followed by
`v` and optionally a newline, where `v` neither starts nor ends with white
space, `Read` stores exactly `v` as the version and leaves the diagnostics as
they were. -/
theorem version_read_parses (sys : System) (resp : ReadDataSourceResponse) (w : World)
    (v : String) (nl : Bool)
    (hlead : ∀ c, v.data.head? = some c → isSpace c = false)
    (htrail : ∀ c, v.data.getLast? = some c → isSpace c = false)
    (hrun : sys.run ⟨sys.exe, [(TJPRunJFS, "true")], ["--version"]⟩ =
      ⟨"juicefs version " ++ v ++ (if nl then "\n" else ""), none⟩) :
    (dataSourceVersion.Read sys resp w).1 =
      { State := some ⟨v⟩, Diagnostics := resp.Diagnostics } := by
  have hlen : ("juicefs version " ++ v ++ (if nl then "\n" else "")).length ≠ 0 := by
    have h16 : "juicefs version ".length = 16 := by decide
    simp only [String.length_append, h16]
    omega
  rw [version_read_success sys resp w _ hlen hrun]
  have hsplit : "juicefs version " ++ v ++ (if nl then "\n" else "") =
      "juicefs" ++ (" version " ++ v ++ (if nl then "\n" else "")) := by
    have h0 : "juicefs version " = "juicefs" ++ " version " := by decide
    rw [h0, String.append_assoc, String.append_assoc, String.append_assoc]
  rw [hsplit, TrimPrefix_append]
  have hnl : ∀ c ∈ (if nl then "\n" else "" : String).data, isSpace c = true := by
    cases nl
    · intro c hc; simp at hc
    · intro c hc
      have : c = '\n' := by simpa using hc
      subst this; decide
  rcases v with ⟨l⟩
  cases l with
  | nil =>
    have hempty : TrimSpace (TrimPrefix (TrimSpace
        (" version " ++ (⟨[]⟩ : String) ++ (if nl then "\n" else ""))) "version") = ⟨[]⟩ := by
      cases nl <;> decide
    rw [hempty]
  | cons a t =>
    have h2 : TrimSpace (" version " ++ (⟨a :: t⟩ : String) ++ (if nl then "\n" else "")) =
        "version" ++ (" " ++ (⟨a :: t⟩ : String)) := by
      have e1 : " version " ++ (⟨a :: t⟩ : String) ++ (if nl then "\n" else "") =
          ⟨[' '] ++ ("version ".data ++ a :: t) ++ (if nl then "\n" else "" : String).data⟩ := by
        apply String.ext
        simp [String.data_append]
      have e2 : "version" ++ (" " ++ (⟨a :: t⟩ : String)) =
          ⟨"version ".data ++ a :: t⟩ := by
        apply String.ext
        simp [String.data_append]
      rw [e1, e2]
      apply trim_sandwich
      · intro c hc
        have : c = ' ' := by simpa using hc
        subst this; decide
      · exact hnl
      · intro c hc
        have : c = 'v' := by
          have h : ("version ".data ++ a :: t).head? = some 'v' := rfl
          rw [h] at hc; exact (Option.some.inj hc).symm
        subst this; decide
      · intro c hc
        apply htrail c
        rw [← hc, List.getLast?_append_of_ne_nil _ (List.cons_ne_nil a t)]
    rw [h2, TrimPrefix_append]
    have e3 : " " ++ (⟨a :: t⟩ : String) = ⟨[' '] ++ (a :: t) ++ []⟩ := by
      apply String.ext
      simp [String.data_append]
    rw [e3]
    congr 3
    apply trim_sandwich
    · intro c hc
      have : c = ' ' := by simpa using hc
      subst this; decide
    · intro c hc; simp at hc
    · exact hlead
    · exact htrail

/-- Witness of C8: output "juicefs version 1.2.3" gives the version "1.2.3". -/
theorem version_read_parses_witness :
    (dataSourceVersion.Read ⟨"tf", fun _ => ⟨"juicefs version 1.2.3", none⟩, fun _ => "u"⟩
        ⟨none, []⟩ ⟨[], 0⟩).1 = { State := some ⟨"1.2.3"⟩, Diagnostics := [] } :=
  version_read_parses ⟨"tf", fun _ => ⟨"juicefs version 1.2.3", none⟩, fun _ => "u"⟩
    ⟨none, []⟩ ⟨[], 0⟩ "1.2.3" false (by decide) (by decide) (by decide)

/-- C9: when the version subprocess succeeds with empty output, `Read` sets no
state and adds the error diagnostic "Unexpected output"; when the subprocess
errors, `Read` sets no state and adds the error diagnostic "Failed to run
juicefs" carrying the error text; the two diagnostics are distinct. -/
theorem version_read_failures (sys : System) (resp : ReadDataSourceResponse) (w : World) :
    (sys.run ⟨sys.exe, [(TJPRunJFS, "true")], ["--version"]⟩ = ⟨"", none⟩ →
      (dataSourceVersion.Read sys resp w).1.State = resp.State ∧
      (dataSourceVersion.Read sys resp w).1.Diagnostics =
        resp.Diagnostics.AddError "Unexpected output" "JuiceFS did not output anything" ∧
      NewErrorDiagnostic "Unexpected output" "JuiceFS did not output anything" ∈
        (dataSourceVersion.Read sys resp w).1.Diagnostics ∧
      (dataSourceVersion.Read sys resp w).1.Diagnostics.HasError = true) ∧
    (∀ out e, sys.run ⟨sys.exe, [(TJPRunJFS, "true")], ["--version"]⟩ = ⟨out, some e⟩ →
      (dataSourceVersion.Read sys resp w).1.State = resp.State ∧
      (dataSourceVersion.Read sys resp w).1.Diagnostics =
        resp.Diagnostics.AddError "Failed to run juicefs" e ∧
      NewErrorDiagnostic "Failed to run juicefs" e ∈
        (dataSourceVersion.Read sys resp w).1.Diagnostics ∧
      (dataSourceVersion.Read sys resp w).1.Diagnostics.HasError = true) ∧
    (∀ e, NewErrorDiagnostic "Unexpected output" "JuiceFS did not output anything" ≠
      NewErrorDiagnostic "Failed to run juicefs" e) := by
  refine ⟨?_, ?_, ?_⟩
  · intro hrun
    have hr : (dataSourceVersion.Read sys resp w).1 =
        { State := resp.State, Diagnostics :=
            resp.Diagnostics.AddError "Unexpected output" "JuiceFS did not output anything" } := by
      unfold dataSourceVersion.Read RunCommandWithEnvReturnOutput
      simp [hrun]
    rw [hr]
    refine ⟨rfl, rfl, mem_Append_single _ _, ?_⟩
    exact HasError_of_mem _ _ (mem_Append_single _ _) rfl
  · intro out e hrun
    have hr : (dataSourceVersion.Read sys resp w).1 =
        { State := resp.State, Diagnostics :=
            resp.Diagnostics.AddError "Failed to run juicefs" e } := by
      unfold dataSourceVersion.Read RunCommandWithEnvReturnOutput
      simp [hrun]
    rw [hr]
    refine ⟨rfl, rfl, mem_Append_single _ _, ?_⟩
    exact HasError_of_mem _ _ (mem_Append_single _ _) rfl
  · intro e h
    have h2 := congrArg Diagnostic.summary h
    simp only [NewErrorDiagnostic] at h2
    exact absurd h2 (by decide)

/-- Witness of C9: empty output on a fresh response gives the single
"Unexpected output" diagnostic and no state; a failing subprocess gives the
single "Failed to run juicefs" diagnostic and no state. -/
theorem version_read_failures_witness :
    ((dataSourceVersion.Read ⟨"tf", fun _ => ⟨"", none⟩, fun _ => "u"⟩
        ⟨none, []⟩ ⟨[], 0⟩).1.State = none ∧
      (dataSourceVersion.Read ⟨"tf", fun _ => ⟨"", none⟩, fun _ => "u"⟩
        ⟨none, []⟩ ⟨[], 0⟩).1.Diagnostics =
        [⟨Severity.Error, "Unexpected output", "JuiceFS did not output anything"⟩]) ∧
    ((dataSourceVersion.Read ⟨"tf", fun _ => ⟨"x", some "exit status 1"⟩, fun _ => "u"⟩
        ⟨none, []⟩ ⟨[], 0⟩).1.State = none ∧
      (dataSourceVersion.Read ⟨"tf", fun _ => ⟨"x", some "exit status 1"⟩, fun _ => "u"⟩
        ⟨none, []⟩ ⟨[], 0⟩).1.Diagnostics =
        [⟨Severity.Error, "Failed to run juicefs", "exit status 1"⟩]) :=
  ⟨⟨((version_read_failures ⟨"tf", fun _ => ⟨"", none⟩, fun _ => "u"⟩
        ⟨none, []⟩ ⟨[], 0⟩).1 rfl).1,
    ((version_read_failures ⟨"tf", fun _ => ⟨"", none⟩, fun _ => "u"⟩
        ⟨none, []⟩ ⟨[], 0⟩).1 rfl).2.1⟩,
   ⟨((version_read_failures ⟨"tf", fun _ => ⟨"x", some "exit status 1"⟩, fun _ => "u"⟩
        ⟨none, []⟩ ⟨[], 0⟩).2.1 "x" "exit status 1" rfl).1,
    ((version_read_failures ⟨"tf", fun _ => ⟨"x", some "exit status 1"⟩, fun _ => "u"⟩
        ⟨none, []⟩ ⟨[], 0⟩).2.1 "x" "exit status 1" rfl).2.1⟩⟩

/-- C6: when the configuration decodes without error and the format subprocess
run by `Create` returns an error with captured output `o`, `Create` leaves the
resource state as it was (absent stays absent), draws no identifier, and the
response holds an error diagnostic "Failed to run juicefs init" whose detail
contains `o` as a substring. -/
theorem create_failure_sets_no_state (sys : System) (req : CreateResourceRequest)
    (resp : ResourceResponse) (w : World) (o e : String)
    (hdec : (resp.Diagnostics.Append req.Config.diags).HasError = false)
    (hrun : sys.run ⟨sys.exe, juiceFSFormatEnv req.Config.value,
      juiceFSFormatParams req.Config.value⟩ = ⟨o, some e⟩) :
    (resourceImage.Create sys req resp w).1.State = resp.State ∧
    (resourceImage.Create sys req resp w).2.uuids = w.uuids ∧
    (resourceImage.Create sys req resp w).1.Diagnostics.HasError = true ∧
    ∃ d ∈ (resourceImage.Create sys req resp w).1.Diagnostics,
      d.severity = Severity.Error ∧ d.summary = "Failed to run juicefs init" ∧
      d.detail = "could not run juicefs command; output: " ++ o ++ ": " ++ e ∧
      Contains d.detail o = true := by
  have herr := juiceFSFormat_err sys req.Config.value w
  have hw := juiceFSFormat_world sys req.Config.value w
  rw [hrun] at herr
  simp only [errorsWrap] at herr
  have hc : resourceImage.Create sys req resp w =
      ({ State := resp.State, Diagnostics :=
          (resp.Diagnostics.Append req.Config.diags).AddError "Failed to run juicefs init"
            ("could not run juicefs command; output: " ++ o ++ ": " ++ e) },
       (resourceImage.juiceFSFormat sys req.Config.value w).2) := by
    unfold resourceImage.Create
    simp only [hdec, Bool.false_eq_true, if_false]
    rcases hj : resourceImage.juiceFSFormat sys req.Config.value w with ⟨err, w2⟩
    rw [hj] at herr
    simp only at herr
    subst herr
    rfl
  rw [hc, hw]
  refine ⟨rfl, rfl, HasError_of_mem _ _ (mem_Append_single _ _) rfl, ?_⟩
  refine ⟨_, mem_Append_single _ _, rfl, rfl, rfl, ?_⟩
  show Contains ("could not run juicefs command; output: " ++ o ++ ": " ++ e) o = true
  rw [String.append_assoc]
  exact Contains_middle _ _ _

/-- Witness of C6: a failing subprocess with output "boom" on an absent
resource leaves it absent and reports the output in the diagnostic. -/
theorem create_failure_sets_no_state_witness :
    (resourceImage.Create ⟨"tf", fun _ => ⟨"boom", some "exit status 1"⟩, fun _ => "u"⟩
        ⟨⟨{ ID := ⟨false, true, ""⟩, AdditionalParams := [], Environment := [],
            Triggers := [], Force := ⟨false, true, false⟩, Storage := ⟨false, false, "mem"⟩,
            Bucket := ⟨false, true, ""⟩, MetadataURI := ⟨false, false, "m"⟩,
            StorageName := ⟨false, false, "n"⟩,
            AzureStorageEndpointSuffixFix := ⟨false, true, false⟩ }, []⟩⟩
        ⟨none, []⟩ ⟨[], 0⟩).1.State = none :=
  (create_failure_sets_no_state ⟨"tf", fun _ => ⟨"boom", some "exit status 1"⟩, fun _ => "u"⟩
    ⟨⟨{ ID := ⟨false, true, ""⟩, AdditionalParams := [], Environment := [],
        Triggers := [], Force := ⟨false, true, false⟩, Storage := ⟨false, false, "mem"⟩,
        Bucket := ⟨false, true, ""⟩, MetadataURI := ⟨false, false, "m"⟩,
        StorageName := ⟨false, false, "n"⟩,
        AzureStorageEndpointSuffixFix := ⟨false, true, false⟩ }, []⟩⟩
    ⟨none, []⟩ ⟨[], 0⟩ "boom" "exit status 1" rfl rfl).1

/-- C5 as stated fails: with a prior state whose identifier is the known value
"11111111-1111-4111-8111-111111111111", a plan whose identifier is unknown and
a succeeding subprocess, `Update` persists the freshly drawn identifier
"00000000-0000-4000-8000-000000000000", not the prior one. -/
theorem update_identifier_not_preserved :
    ¬ ∀ (sys : System) (req : UpdateResourceRequest) (resp : ResourceResponse) (w : World)
        (i : String),
      req.State.value.ID = ⟨false, false, i⟩ →
      ((resp.Diagnostics.Append req.Plan.diags).Append req.State.diags).HasError = false →
      (sys.run ⟨sys.exe, juiceFSFormatEnv req.Plan.value,
        juiceFSFormatParams req.Plan.value⟩).err = none →
      ∃ st, (resourceImage.Update sys req resp w).1.State = some st ∧
        st.ID = ⟨false, false, i⟩ := by
  intro h
  have hu : ((resourceImage.Update sampleSystem
      ⟨⟨sampleFormat ⟨true, false, ""⟩ "m2", []⟩,
        ⟨sampleFormat ⟨false, false, "11111111-1111-4111-8111-111111111111"⟩ "m", []⟩⟩
      ⟨none, []⟩ ⟨[], 0⟩).1.State.map resourceFormat.ID) =
      some ⟨false, false, "00000000-0000-4000-8000-000000000000"⟩ := by decide
  obtain ⟨st, hst, hid⟩ := h sampleSystem
    ⟨⟨sampleFormat ⟨true, false, ""⟩ "m2", []⟩,
      ⟨sampleFormat ⟨false, false, "11111111-1111-4111-8111-111111111111"⟩ "m", []⟩⟩
    ⟨none, []⟩ ⟨[], 0⟩ "11111111-1111-4111-8111-111111111111" rfl rfl rfl
  rw [hst] at hu
  simp only [Option.map_some', hid, Option.some.injEq] at hu
  exact absurd hu (by decide)

/-- C5 as amended: when plan and prior state decode without error and the
format subprocess succeeds, `Update` persists the planned configuration; its
identifier is the plan's identifier verbatim when that is known, and a newly
drawn identifier when the plan's identifier is unknown. The prior state's
identifier is not consulted. -/
theorem update_persists_plan_identifier (sys : System) (req : UpdateResourceRequest)
    (resp : ResourceResponse) (w : World)
    (hplan : (resp.Diagnostics.Append req.Plan.diags).HasError = false)
    (hstate : ((resp.Diagnostics.Append req.Plan.diags).Append req.State.diags).HasError = false)
    (hrun : (sys.run ⟨sys.exe, juiceFSFormatEnv req.Plan.value,
      juiceFSFormatParams req.Plan.value⟩).err = none) :
    (resourceImage.Update sys req resp w).1.State =
      some (if req.Plan.value.ID.Unknown then
          { req.Plan.value with ID := ⟨false, false, sys.newUUID w.uuids⟩ }
        else req.Plan.value) := by
  have herr := juiceFSFormat_err sys req.Plan.value w
  have hw := juiceFSFormat_world sys req.Plan.value w
  rw [hrun] at herr
  simp only at herr
  unfold resourceImage.Update
  simp only [hplan, hstate, Bool.false_eq_true, if_false]
  rcases hj : resourceImage.juiceFSFormat sys req.Plan.value w with ⟨err, w2⟩
  rw [hj] at herr hw
  simp only at herr hw
  subst herr
  have hw2 : w2.uuids = w.uuids := by rw [hw]
  unfold resourceImage.updateState stateSet
  cases hu : req.Plan.value.ID.Unknown <;> simp [hu, hw2]

/-- Witness of the amended C5: a plan that carries the known identifier "i"
keeps it although the metadata URI changed. -/
theorem update_persists_plan_identifier_witness :
    (resourceImage.Update sampleSystem
      ⟨⟨sampleFormat ⟨false, false, "i"⟩ "m2", []⟩, ⟨sampleFormat ⟨false, false, "i"⟩ "m", []⟩⟩
      ⟨none, []⟩ ⟨[], 0⟩).1.State = some (sampleFormat ⟨false, false, "i"⟩ "m2") :=
  update_persists_plan_identifier sampleSystem
    ⟨⟨sampleFormat ⟨false, false, "i"⟩ "m2", []⟩, ⟨sampleFormat ⟨false, false, "i"⟩ "m", []⟩⟩
    ⟨none, []⟩ ⟨[], 0⟩ rfl rfl rfl

/-- Witness of C10: deleting a stored resource on a fresh response leaves the
world untouched and the resource absent. -/
theorem delete_runs_no_subprocess_witness :
    (resourceImage.Delete sampleSystem ⟨⟨sampleFormat ⟨false, false, "i"⟩ "m", []⟩⟩
        ⟨some (sampleFormat ⟨false, false, "i"⟩ "m"), []⟩ ⟨[], 0⟩).2 = ⟨[], 0⟩ ∧
    (resourceImage.Delete sampleSystem ⟨⟨sampleFormat ⟨false, false, "i"⟩ "m", []⟩⟩
        ⟨some (sampleFormat ⟨false, false, "i"⟩ "m"), []⟩ ⟨[], 0⟩).1 =
      { State := none, Diagnostics := [] } :=
  ⟨(delete_runs_no_subprocess sampleSystem ⟨⟨sampleFormat ⟨false, false, "i"⟩ "m", []⟩⟩
      ⟨some (sampleFormat ⟨false, false, "i"⟩ "m"), []⟩ ⟨[], 0⟩).1,
   (delete_runs_no_subprocess sampleSystem ⟨⟨sampleFormat ⟨false, false, "i"⟩ "m", []⟩⟩
      ⟨some (sampleFormat ⟨false, false, "i"⟩ "m"), []⟩ ⟨[], 0⟩).2 rfl⟩

end JuiceFS
